import Mathlib

/-!
# Verification of the `dynamic_reload` library (src/src/lib.rs)

A shallow embedding of the reload-orchestration engine: path resolution
(`search_dirs`), shadow-copy staging (`try_copy`, `format_filename`), the
library registry (`libs`, `remove_lib` via `Vec::swap_remove`), event
matching (`should_reload`), and the dispatch loop (`update`, `reload_libs`,
`reload_lib`) together with its callback protocol.

Filesystem paths are modelled as lists of components.  The external world
(the filesystem, the loader primitive `Library::new`, the wall clock read
by `format_filename`, and the per-attempt observations made by `try_copy`)
is modelled as an explicit environment threaded through the functions.
Callback invocations are modelled by returning the list of
`(UpdateState, Option Lib)` arguments passed to the callback, in order.
-/

namespace DynamicReloadModel

/-- A filesystem path, as its list of components (mirroring `PathBuf`).
`[]` is the empty/root path, whose `parent()` is `None`. -/
abbrev RPath := List String

/-- `Path::file_name()`: the last component, `None` for the empty path
(components are assumed in normal form, as all paths built by the library
are). -/
def fileName (p : RPath) : Option String := p.getLast?

/-- `Path::parent()`: drop the last component; `None` for the empty path. -/
def parentDir (p : RPath) : Option RPath :=
  match p with
  | [] => none
  | _ :: _ => some p.dropLast

/-- Result of `fs::metadata`: whether the (symlink-resolved) target is a
regular file, and its length. -/
structure FileMeta where
  isFile : Bool
  len : Nat
deriving DecidableEq

/-- A snapshot of the filesystem: `fs::metadata` on each path
(`none` = the stat call fails). -/
abbrev FS := RPath → Option FileMeta

/-- `Search` (src/src/lib.rs:115): whether backward search from the
executable is allowed. -/
inductive Search where
  | Default
  | Backwards
deriving DecidableEq

/-- `PlatformName` (src/src/lib.rs:153). -/
inductive PlatformName where
  | No
  | Yes
deriving DecidableEq

/-- `get_dynamiclib_name` for the Linux build target
(src/src/lib.rs:669): `"test_foo" -> "libtest_foo.so"`. -/
def get_dynamiclib_name (name : String) : String :=
  "lib" ++ name ++ ".so"

/-- `get_library_name` (src/src/lib.rs:619). -/
def get_library_name (name : String) (name_format : PlatformName) : String :=
  if name_format = PlatformName.Yes then get_dynamiclib_name name else name

/-- `is_file` (src/src/lib.rs:544): `Some path` when `fs::metadata`
succeeds and reports a regular file, else `None`. -/
def is_file (fs : FS) (path : RPath) : Option RPath :=
  match fs path with
  | some md => if md.isFile then some path else none
  | none => none

/-- `search_current_dir` (src/src/lib.rs:494): probe the bare name as a
relative path (one component) in the current working directory. -/
def search_current_dir (fs : FS) (name : String) : Option RPath :=
  is_file fs [name]

/-- `search_relative_paths` (src/src/lib.rs:498): probe
`search_path.join(name)` for each configured search path in order. -/
def search_relative_paths (fs : FS) (search_paths : List RPath) (name : String) :
    Option RPath :=
  match search_paths with
  | [] => none
  | p :: rest =>
      match is_file fs (p ++ [name]) with
      | some file => some file
      | none => search_relative_paths fs rest name

/-- `search_backwards_from_file` (src/src/lib.rs:513): walk to the parent
of `path`, probe `parent.join(lib_name)`, and recurse upward until the
parent chain ends. -/
def search_backwards_from_file (fs : FS) (path : RPath) (lib_name : String) :
    Option RPath :=
  match h : parentDir path with
  | some p =>
      let new_path := p ++ [lib_name]
      if (is_file fs new_path).isSome then some new_path
      else search_backwards_from_file fs p lib_name
  | none => none
termination_by path.length
decreasing_by
  cases path with
  | nil => simp [parentDir] at h
  | cons a t =>
      simp only [parentDir, Option.some.injEq] at h
      subst h
      simp

/-- `search_backwards_from_exe` (src/src/lib.rs:526): start the backward
walk at the executable's own path (so the first probed directory is the
directory containing the executable). -/
def search_backwards_from_exe (fs : FS) (exe_path : RPath) (lib_name : String) :
    Option RPath :=
  search_backwards_from_file fs exe_path lib_name

/-- `search_dirs` (src/src/lib.rs:477): current directory, then the
configured search paths, then the executable directory and its ancestors.
Note the source performs the backward walk unconditionally: the `Search`
value given to `new` is bound as `_search` and never consulted. -/
def search_dirs (fs : FS) (exe_path : RPath) (search_paths : List RPath)
    (name : String) (name_format : PlatformName) : Option RPath :=
  let lib_name := get_library_name name name_format
  match search_current_dir fs lib_name with
  | some path => some path
  | none =>
      match search_relative_paths fs search_paths lib_name with
      | some path => some path
      | none => search_backwards_from_exe fs exe_path lib_name

/-- The library's error type.  Modelled from the spec: the `error` module
(`mod error` in src/src/lib.rs:68) is not under src/, so the variants are
taken from the spec's error surface (`NotFound(name)`, `LoadError`,
`CopyTimeout(source, dest)`, §7) and from the constructor applications in
src/src/lib.rs (`Error::Find(name)` at 435, `Error::Load(e)` at 462,
`Error::CopyTimeOut(src, dest)` at 586).  The payload of `Load` is an
opaque code standing for the `libloading` diagnostic. -/
inductive Error where
  | Find : String → Error
  | Load : Nat → Error
  | CopyTimeOut : RPath → RPath → Error
deriving DecidableEq

/-- `UpdateState` (src/src/lib.rs:130). -/
inductive UpdateState where
  | Before
  | After
  | ReloadFailed : Error → UpdateState
deriving DecidableEq

/-- `Lib` (src/src/lib.rs:75).  The `libloading::Library` handle is an
opaque identifier. -/
structure Lib where
  lib : Nat
  loaded_path : RPath
  original_path : Option RPath
deriving DecidableEq

/-- `impl PartialEq for Lib` (src/src/lib.rs:674): equality compares only
`original_path`. -/
def libEq (a b : Lib) : Bool :=
  a.original_path == b.original_path

/-- Decimal rendering of a natural number, as `format!` renders the
`u128` returned by `Duration::as_millis` (src/src/lib.rs:641). -/
def natRepr (n : Nat) : List Char :=
  if n < 10 then [Nat.digitChar n]
  else natRepr (n / 10) ++ [Nat.digitChar (n % 10)]
decreasing_by
  exact Nat.div_lt_self (by omega) (by omega)

/-- `format_filename` (src/src/lib.rs:636, default features): join onto
the shadow directory the string made of the millisecond wall-clock
timestamp at the moment of the call, an underscore, and the source
path's final component. -/
def format_filename (nowMillis : Nat) (shadow_dir : RPath) (full_path : RPath) :
    RPath :=
  shadow_dir ++ [String.mk (natRepr nowMillis) ++ "_" ++ (fileName full_path).getD ""]

/-- One `try_copy` attempt succeeds when the source's metadata is
readable, its length is positive, and the `fs::copy` call succeeds.
`meta i` / `copyOk i` are the external world's answers at attempt `i`. -/
def attemptGood (meta : Nat → Option Nat) (copyOk : Nat → Bool) (i : Nat) : Bool :=
  match meta i with
  | some len => decide (0 < len) && copyOk i
  | none => false

/-- The `for _ in 0..10` loop of `try_copy`: starting at attempt `i` with
`k` attempts remaining, return the index of the first successful attempt. -/
def firstGoodAttempt (meta : Nat → Option Nat) (copyOk : Nat → Bool) :
    Nat → Nat → Option Nat
  | _, 0 => none
  | i, k + 1 =>
      if attemptGood meta copyOk i then some i
      else firstGoodAttempt meta copyOk (i + 1) k

/-- `try_copy` (src/src/lib.rs:568): up to 10 attempts, 100 ms apart;
each reads the source metadata, skips when unreadable or empty, copies
otherwise, treats copy failure as transient; first success returns `Ok`,
exhaustion returns `CopyTimeOut(src, dest)`. -/
def try_copy (meta : Nat → Option Nat) (copyOk : Nat → Bool) (src dest : RPath) :
    Except Error Unit :=
  match firstGoodAttempt meta copyOk 0 10 with
  | some _ => Except.ok ()
  | none => Except.error (Error.CopyTimeOut src dest)

/-- The number of loop iterations `try_copy` executes before returning:
`i + 1` when attempt `i` is the first success, all 10 on exhaustion. -/
def try_copy_attempts (meta : Nat → Option Nat) (copyOk : Nat → Bool) : Nat :=
  match firstGoodAttempt meta copyOk 0 10 with
  | some i => i + 1
  | none => 10

/-- The external world as observed by one dispatch/registration call: the
filesystem snapshot used by path resolution, the executable path
(`env::current_exe`), the wall clock read by `format_filename`, the
per-attempt observations of `try_copy`, and the outcome of the
`Library::new` load primitive for each path. -/
structure Env where
  fs : FS
  exe_path : RPath
  nowMillis : Nat
  meta : Nat → Option Nat
  copyOk : Nat → Bool
  libNew : RPath → Except Nat Nat

/-- `DynamicReload` (src/src/lib.rs:101).  The watcher is modelled by
whether it was created plus the list of watched directories; the pending
event channel is passed to `update` as an explicit list. -/
structure DynamicReload where
  libs : List Lib
  watcher : Bool
  watched : List RPath
  shadow_dir : Option RPath
  search_paths : List RPath
deriving DecidableEq

/-- `DynamicReload::new` (src/src/lib.rs:224).  The `Search` argument is
bound as `_search` in the source and never stored or consulted.
`search_paths` are canonicalized best-effort with the given path as
fallback; the model keeps the given paths.  `shadow_dir` is the result of
`get_temp_dir` (`none` when disabled or creation failed). -/
def DynamicReload.new (watcher_ok : Bool) (search_paths : List RPath)
    (shadow_dir : Option RPath) ( _search : Search) : DynamicReload :=
  { libs := []
    watcher := watcher_ok
    watched := []
    shadow_dir := shadow_dir
    search_paths := search_paths }

/-- `init_library` (src/src/lib.rs:455). -/
def init_library (env : Env) (org_path : Option RPath) (path : RPath) :
    Except Error Lib :=
  match env.libNew path with
  | Except.ok l =>
      Except.ok { original_path := org_path, loaded_path := path, lib := l }
  | Except.error e => Except.error (Error.Load e)

/-- `load_library` (src/src/lib.rs:439): with a shadow dir, stage via
`format_filename` and `try_copy` and record the original path; without
one, load in place with no original path. -/
def load_library (env : Env) (st : DynamicReload) (full_path : RPath) :
    Except Error Lib :=
  match st.shadow_dir with
  | some sd =>
      let path := format_filename env.nowMillis sd full_path
      match try_copy env.meta env.copyOk full_path path with
      | Except.ok _ => init_library env (some full_path) path
      | Except.error e => Except.error e
  | none => init_library env none full_path

/-- `try_load_library` (src/src/lib.rs:432). -/
def try_load_library (env : Env) (st : DynamicReload) (name : String)
    (name_format : PlatformName) : Except Error Lib :=
  match search_dirs env.fs env.exe_path st.search_paths name name_format with
  | some path => load_library env st path
  | none => Except.error (Error.Find name)

/-- `add_library` (src/src/lib.rs:300): on success, watch the original
path's parent directory (when a watcher and an original path exist) and
push the new `Lib`; on failure, return the error unchanged. -/
def add_library (env : Env) (st : DynamicReload) (name : String)
    (name_format : PlatformName) : DynamicReload × Except Error Lib :=
  match try_load_library env st name name_format with
  | Except.ok lib =>
      let st1 :=
        if st.watcher then
          match lib.original_path with
          | some path =>
              { st with watched := st.watched ++ [(parentDir path).getD []] }
          | none => st
        else st
      ({ st1 with libs := st1.libs ++ [lib] }, Except.ok lib)
  | Except.error e => (st, Except.error e)

/-- `Vec::swap_remove`: replace the element at `i` with the last element
and pop.  (Out-of-range indices panic in Rust; all call sites here are in
range.) -/
def swapRemove {α : Type} (l : List α) (i : Nat) : List α :=
  match l.getLast? with
  | some x => if i < l.length then (l.set i x).dropLast else l
  | none => l

/-- `remove_lib` (src/src/lib.rs:627): `swap_remove` the entry (under the
`no-unload` feature the handle is leaked rather than dropped; either way
the registry entry is removed the same way). -/
def remove_lib (st : DynamicReload) (idx : Nat) : DynamicReload :=
  { st with libs := swapRemove st.libs idx }

/-- `should_reload` (src/src/lib.rs:466): a tracked `Lib` matches a
change notification iff its `original_path` is present and the two paths'
`file_name()`s compare equal. -/
def should_reload (reload_path : RPath) (lib : Lib) : Bool :=
  match lib.original_path with
  | some p => fileName reload_path == fileName p
  | none => false

/-- One argument pair passed to the host callback. -/
abbrev CallbackCall := UpdateState × Option Lib

/-- `reload_lib` (src/src/lib.rs:407): invoke the callback with `Before`
and the live entry, `swap_remove` it, re-run the load path, then invoke
the callback once with `After` and the new `Lib` on success or with
`ReloadFailed(err)` and no `Lib` on failure. -/
def reload_lib (env : Env) (st : DynamicReload) (index : Nat)
    (file_path : RPath) : DynamicReload × List CallbackCall :=
  let before : CallbackCall := (UpdateState.Before, st.libs[index]?)
  let st1 := remove_lib st index
  match load_library env st1 file_path with
  | Except.ok lib =>
      ({ st1 with libs := st1.libs ++ [lib] },
        [before, (UpdateState.After, some lib)])
  | Except.error err =>
      (st1, [before, (UpdateState.ReloadFailed err, none)])

/-- The `for i in (0..len).rev()` loop of `reload_libs`
(src/src/lib.rs:395): iteration `k + 1` handles index `k`. -/
def reload_libs_loop (env : Env) (file_path : RPath) :
    Nat → DynamicReload → List CallbackCall → DynamicReload × List CallbackCall
  | 0, st, calls => (st, calls)
  | k + 1, st, calls =>
      match st.libs[k]? with
      | some l =>
          if should_reload file_path l then
            let r := reload_lib env st k file_path
            reload_libs_loop env file_path k r.1 (calls ++ r.2)
          else reload_libs_loop env file_path k st calls
      | none => reload_libs_loop env file_path k st calls

/-- `reload_libs` (src/src/lib.rs:395). -/
def reload_libs (env : Env) (st : DynamicReload) (file_path : RPath) :
    DynamicReload × List CallbackCall :=
  reload_libs_loop env file_path st.libs.length st []

/-- `notify::DebouncedEvent` (notify 4.x), as drained from the channel. -/
inductive DebouncedEvent where
  | NoticeWrite : RPath → DebouncedEvent
  | NoticeRemove : RPath → DebouncedEvent
  | Create : RPath → DebouncedEvent
  | Write : RPath → DebouncedEvent
  | Chmod : RPath → DebouncedEvent
  | Remove : RPath → DebouncedEvent
  | Rename : RPath → RPath → DebouncedEvent
  | Rescan : DebouncedEvent
  | Error : Nat → Option RPath → DebouncedEvent

/-- One iteration of the `while let Ok(evt) = self.watch_recv.try_recv()`
loop of `update` (src/src/lib.rs:384): `NoticeWrite`, `Write` and
`Create` events are dispatched to `reload_libs`; every other event kind
is discarded. -/
def update_step (env : Env) (acc : DynamicReload × List CallbackCall)
    (evt : DebouncedEvent) : DynamicReload × List CallbackCall :=
  match evt with
  | DebouncedEvent.NoticeWrite path =>
      let r := reload_libs env acc.1 path
      (r.1, acc.2 ++ r.2)
  | DebouncedEvent.Write path =>
      let r := reload_libs env acc.1 path
      (r.1, acc.2 ++ r.2)
  | DebouncedEvent.Create path =>
      let r := reload_libs env acc.1 path
      (r.1, acc.2 ++ r.2)
  | _ => acc

/-- `update` (src/src/lib.rs:380): drain the pending events in arrival
order.  The returned list is the full sequence of callback invocations;
the function has no error return. -/
def update (env : Env) (st : DynamicReload) (events : List DebouncedEvent) :
    DynamicReload × List CallbackCall :=
  events.foldl (update_step env) (st, [])

/-! ## Theorems -/

/-- C8: two `Lib` values compare equal exactly when their
`original_path` fields are equal, and any two `Lib` values sharing an
`original_path` compare equal no matter how their handle and
`loaded_path` fields differ. -/
theorem lib_eq_iff_original_path :
    (∀ a b : Lib, libEq a b = true ↔ a.original_path = b.original_path) ∧
    (∀ (h1 h2 : Nat) (p1 p2 : RPath) (o : Option RPath),
      libEq { lib := h1, loaded_path := p1, original_path := o }
            { lib := h2, loaded_path := p2, original_path := o } = true) := by
  constructor
  · intro a b
    simp [libEq]
  · intro h1 h2 p1 p2 o
    simp [libEq]

/-- C9: draining an empty pending-event queue invokes the callback zero
times and returns the coordinator state unchanged. -/
theorem update_no_events_noop (env : Env) (st : DynamicReload) :
    update env st [] = (st, []) := rfl

/-- C10: the dispatch loop processes `NoticeWrite`, `Write` and `Create`
events through `reload_libs`, and discards every other drained event
kind (`NoticeRemove`, `Chmod`, `Remove`, `Rename`, `Rescan`, watcher
errors) with no callback invocation and no state change. -/
theorem update_step_event_filter (env : Env)
    (acc : DynamicReload × List CallbackCall) :
    (∀ p, update_step env acc (DebouncedEvent.NoticeWrite p) =
      ((reload_libs env acc.1 p).1, acc.2 ++ (reload_libs env acc.1 p).2)) ∧
    (∀ p, update_step env acc (DebouncedEvent.Write p) =
      ((reload_libs env acc.1 p).1, acc.2 ++ (reload_libs env acc.1 p).2)) ∧
    (∀ p, update_step env acc (DebouncedEvent.Create p) =
      ((reload_libs env acc.1 p).1, acc.2 ++ (reload_libs env acc.1 p).2)) ∧
    (∀ p, update_step env acc (DebouncedEvent.NoticeRemove p) = acc) ∧
    (∀ p, update_step env acc (DebouncedEvent.Chmod p) = acc) ∧
    (∀ p, update_step env acc (DebouncedEvent.Remove p) = acc) ∧
    (∀ a b, update_step env acc (DebouncedEvent.Rename a b) = acc) ∧
    (update_step env acc DebouncedEvent.Rescan = acc) ∧
    (∀ e p, update_step env acc (DebouncedEvent.Error e p) = acc) := by
  refine ⟨fun p => rfl, fun p => rfl, fun p => rfl, fun p => rfl, fun p => rfl,
    fun p => rfl, fun a b => rfl, rfl, fun e p => rfl⟩

/-- C6: a tracked `Lib` is selected for reload exactly when its
`original_path` is present and has the same `file_name()` as the
notification path; a `Lib` without an `original_path` is never selected,
and the directory part of the notification path is irrelevant. -/
theorem should_reload_iff :
    (∀ (reload_path : RPath) (lib : Lib),
      should_reload reload_path lib = true ↔
        ∃ p, lib.original_path = some p ∧ fileName reload_path = fileName p) ∧
    (∀ (reload_path : RPath) (lib : Lib), lib.original_path = none →
      should_reload reload_path lib = false) ∧
    (∀ (dir1 dir2 : RPath) (f : String) (lib : Lib),
      should_reload (dir1 ++ [f]) lib = should_reload (dir2 ++ [f]) lib) := by
  refine ⟨fun reload_path lib => ?_, fun reload_path lib h => ?_,
    fun dir1 dir2 f lib => ?_⟩
  · cases h : lib.original_path with
    | none => simp [should_reload, h]
    | some p => simp [should_reload, h]
  · simp [should_reload, h]
  · cases h : lib.original_path with
    | none => simp [should_reload, h]
    | some p => simp [should_reload, h, fileName, List.getLast?_concat]

lemma swapRemove_cons_succ {α : Type} (a : α) (t : List α) (j : Nat)
    (hj : j < t.length) : swapRemove (a :: t) (j + 1) = a :: swapRemove t j := by
  cases t with
  | nil => simp at hj
  | cons b t' =>
      cases hg : (b :: t').getLast? with
      | none => simp at hg
      | some x =>
          have h1 : j + 1 < (a :: b :: t').length := by simp at hj ⊢; omega
          have h2 : j < (b :: t').length := hj
          simp only [swapRemove, List.getLast?_cons_cons, hg, if_pos h1, if_pos h2]
          have hset : (a :: b :: t').set (j + 1) x = a :: (b :: t').set j x := rfl
          rw [hset]
          have hne : (b :: t').set j x ≠ [] := by
            cases j <;> simp [List.set]
          rw [List.dropLast_cons_of_ne_nil hne]

lemma swapRemove_perm_eraseIdx {α : Type} :
    ∀ (l : List α) (i : Nat), i < l.length →
      (swapRemove l i).Perm (l.eraseIdx i) := by
  intro l
  induction l with
  | nil => intro i h; simp at h
  | cons a t ih =>
      intro i h
      cases i with
      | zero =>
          cases t with
          | nil => simp [swapRemove]
          | cons b t' =>
              cases hg : (b :: t').getLast? with
              | none => simp at hg
              | some x =>
                  have h0 : (0 : Nat) < (a :: b :: t').length := by simp
                  simp only [swapRemove, List.getLast?_cons_cons, hg, if_pos h0,
                    List.eraseIdx]
                  have hset : (a :: b :: t').set 0 x = x :: b :: t' := rfl
                  rw [hset, List.dropLast_cons₂]
                  have hsplit : (b :: t').dropLast ++ [x] = b :: t' :=
                    List.dropLast_append_getLast? x hg
                  have hperm : ((b :: t').dropLast ++ [x]).Perm
                      (x :: (b :: t').dropLast) := List.perm_append_singleton x _
                  rw [hsplit] at hperm
                  exact hperm.symm
      | succ j =>
          have hj : j < t.length := by simpa using h
          rw [swapRemove_cons_succ a t j hj]
          simpa [List.eraseIdx] using List.Perm.cons a (ih j hj)

/-- C2: once `reload_lib` has invoked the callback with `Before` for the
entry at `index`, it invokes the callback exactly once more, with either
`After` carrying the newly loaded `Lib`, or `ReloadFailed` carrying the
error and no `Lib` — never both and never neither — before returning. -/
theorem reload_lib_exactly_one_outcome (env : Env) (st : DynamicReload)
    (index : Nat) (file_path : RPath) (h : index < st.libs.length) :
    ∃ old, st.libs[index]? = some old ∧
      ((∃ lib, (reload_lib env st index file_path).2 =
          [(UpdateState.Before, some old), (UpdateState.After, some lib)]) ∨
       (∃ e, (reload_lib env st index file_path).2 =
          [(UpdateState.Before, some old), (UpdateState.ReloadFailed e, none)])) := by
  refine ⟨st.libs[index], by simp, ?_⟩
  unfold reload_lib
  cases hl : load_library env (remove_lib st index) file_path with
  | ok lib => exact Or.inl ⟨lib, by simp [hl]⟩
  | error e => exact Or.inr ⟨e, by simp [hl]⟩

/-- C4: when the re-load fails, `reload_lib` surfaces the failure solely
as a `ReloadFailed(e)` callback with no `Lib` reference (the dispatch
path has no error return: `update` returns only the new state and the
callback trace), and the registry afterwards is exactly the old registry
with the removed entry evicted (`swap_remove`) — a permutation of the
old registry minus the removed entry — with nothing re-inserted. -/
theorem reload_lib_failure_not_reinserted (env : Env) (st : DynamicReload)
    (index : Nat) (file_path : RPath) (e : Error)
    (hfail : load_library env (remove_lib st index) file_path = Except.error e) :
    reload_lib env st index file_path =
      (remove_lib st index,
        [(UpdateState.Before, st.libs[index]?),
         (UpdateState.ReloadFailed e, none)]) ∧
    (remove_lib st index).libs = swapRemove st.libs index ∧
    (index < st.libs.length →
      ((reload_lib env st index file_path).1.libs).Perm
        (st.libs.eraseIdx index)) := by
  refine ⟨?_, rfl, ?_⟩
  · simp only [reload_lib, hfail]
  · intro hlt
    simp only [reload_lib, hfail]
    exact swapRemove_perm_eraseIdx st.libs index hlt

/-- C5: when resolution finds no candidate, `add_library` returns
`Find(name)` and the whole coordinator state — in particular the
registry — is unchanged; likewise when the resolved file fails to load,
the load error is returned and nothing is inserted. -/
theorem add_library_error_leaves_registry_unchanged (env : Env)
    (st : DynamicReload) (name : String) (name_format : PlatformName) :
    (search_dirs env.fs env.exe_path st.search_paths name name_format = none →
      add_library env st name name_format = (st, Except.error (Error.Find name))) ∧
    (∀ path e,
      search_dirs env.fs env.exe_path st.search_paths name name_format = some path →
      load_library env st path = Except.error e →
      add_library env st name name_format = (st, Except.error e)) := by
  constructor
  · intro h
    simp [add_library, try_load_library, h]
  · intro path e h1 h2
    simp [add_library, try_load_library, h1, h2]

lemma firstGoodAttempt_some_iff (meta : Nat → Option Nat) (c : Nat → Bool) :
    ∀ (k i j : Nat),
      firstGoodAttempt meta c i k = some j ↔
        (i ≤ j ∧ j < i + k ∧ attemptGood meta c j = true ∧
          ∀ m, i ≤ m → m < j → attemptGood meta c m = false) := by
  intro k
  induction k with
  | zero =>
      intro i j
      simp only [firstGoodAttempt]
      constructor
      · intro h; exact Option.noConfusion h
      · rintro ⟨h1, h2, _, _⟩; omega
  | succ k ih =>
      intro i j
      simp only [firstGoodAttempt]
      by_cases hg : attemptGood meta c i = true
      · rw [if_pos hg]
        constructor
        · intro h
          injection h with h
          subst h
          exact ⟨le_refl i, by omega, hg, fun m hm1 hm2 => by omega⟩
        · rintro ⟨h1, h2, h3, h4⟩
          have hij : j = i := by
            by_contra hne
            have hlt : i < j := by omega
            have := h4 i (le_refl i) hlt
            rw [hg] at this
            exact Bool.noConfusion this
          rw [hij]
      · rw [if_neg hg]
        rw [ih (i + 1) j]
        have hgf : attemptGood meta c i = false := by
          cases hAttG : attemptGood meta c i with
          | true => exact absurd hAttG hg
          | false => rfl
        constructor
        · rintro ⟨h1, h2, h3, h4⟩
          refine ⟨by omega, by omega, h3, fun m hm1 hm2 => ?_⟩
          by_cases hmi : m = i
          · rw [hmi]; exact hgf
          · exact h4 m (by omega) hm2
        · rintro ⟨h1, h2, h3, h4⟩
          have hij : i < j := by
            by_contra hle
            have : j = i := by omega
            rw [this] at h3
            rw [h3] at hgf
            exact Bool.noConfusion hgf
          exact ⟨by omega, by omega, h3, fun m hm1 hm2 => h4 m (by omega) hm2⟩

lemma firstGoodAttempt_none_iff (meta : Nat → Option Nat) (c : Nat → Bool) :
    ∀ (k i : Nat),
      firstGoodAttempt meta c i k = none ↔
        ∀ j, i ≤ j → j < i + k → attemptGood meta c j = false := by
  intro k
  induction k with
  | zero =>
      intro i
      simp only [firstGoodAttempt]
      exact ⟨fun _ j h1 h2 => by omega, fun _ => trivial⟩
  | succ k ih =>
      intro i
      simp only [firstGoodAttempt]
      by_cases hg : attemptGood meta c i = true
      · rw [if_pos hg]
        constructor
        · intro h; exact Option.noConfusion h
        · intro h
          have := h i (le_refl i) (by omega)
          rw [hg] at this
          exact Bool.noConfusion this
      · rw [if_neg hg]
        rw [ih (i + 1)]
        have hgf : attemptGood meta c i = false := by
          cases hAttG : attemptGood meta c i with
          | true => exact absurd hAttG hg
          | false => rfl
        constructor
        · intro h j h1 h2
          by_cases hji : j = i
          · rw [hji]; exact hgf
          · exact h j (by omega) (by omega)
        · intro h j h1 h2
          exact h j (by omega) (by omega)

/-- C3: the staging copy makes at most 10 attempts (100 ms apart in the
source); an attempt is productive exactly when the source's metadata is
readable with a positive size and the copy call succeeds (an unreadable
or zero-size source skips the attempt, a failed copy is transient and
retried); the first productive attempt returns success immediately, and
only exhausting all 10 attempts yields the error, which is always
`CopyTimeOut(src, dest)`. -/
theorem try_copy_retry_policy (meta : Nat → Option Nat) (copyOk : Nat → Bool)
    (src dest : RPath) :
    (∀ i, attemptGood meta copyOk i = true ↔
      ∃ len, meta i = some len ∧ 0 < len ∧ copyOk i = true) ∧
    (try_copy meta copyOk src dest = Except.ok () ↔
      ∃ i, i < 10 ∧ attemptGood meta copyOk i = true) ∧
    (try_copy meta copyOk src dest = Except.error (Error.CopyTimeOut src dest) ↔
      ∀ i, i < 10 → attemptGood meta copyOk i = false) ∧
    (∀ e, try_copy meta copyOk src dest = Except.error e →
      e = Error.CopyTimeOut src dest) ∧
    try_copy_attempts meta copyOk ≤ 10 ∧
    (∀ i, i < 10 → attemptGood meta copyOk i = true →
      (∀ j, j < i → attemptGood meta copyOk j = false) →
      try_copy meta copyOk src dest = Except.ok () ∧
      try_copy_attempts meta copyOk = i + 1) := by
  refine ⟨?_, ?_, ?_, ?_, ?_, ?_⟩
  · intro i
    unfold attemptGood
    cases h : meta i with
    | none => simp
    | some len => simp
  · cases h : firstGoodAttempt meta copyOk 0 10 with
    | some j =>
        have hj := (firstGoodAttempt_some_iff meta copyOk 10 0 j).mp h
        simp only [try_copy, h]
        exact ⟨fun _ => ⟨j, by omega, hj.2.2.1⟩, fun _ => trivial⟩
    | none =>
        have hn := (firstGoodAttempt_none_iff meta copyOk 10 0).mp h
        simp only [try_copy, h]
        constructor
        · intro hc; exact Except.noConfusion hc
        · rintro ⟨i, hi, hgood⟩
          have hbad := hn i (by omega) (by omega)
          rw [hgood] at hbad
          exact Bool.noConfusion hbad
  · cases h : firstGoodAttempt meta copyOk 0 10 with
    | some j =>
        have hj := (firstGoodAttempt_some_iff meta copyOk 10 0 j).mp h
        simp only [try_copy, h]
        constructor
        · intro hc; exact Except.noConfusion hc
        · intro hall
          have hbad := hall j (by omega)
          rw [hj.2.2.1] at hbad
          exact Bool.noConfusion hbad
    | none =>
        have hn := (firstGoodAttempt_none_iff meta copyOk 10 0).mp h
        simp only [try_copy, h]
        exact ⟨fun _ i hi => hn i (by omega) (by omega), fun _ => trivial⟩
  · intro e
    cases h : firstGoodAttempt meta copyOk 0 10 with
    | some j =>
        simp only [try_copy, h]
        intro hc
        exact Except.noConfusion hc
    | none =>
        simp only [try_copy, h]
        intro hc
        injection hc with hc
        exact hc.symm
  · cases h : firstGoodAttempt meta copyOk 0 10 with
    | some j =>
        have hj := (firstGoodAttempt_some_iff meta copyOk 10 0 j).mp h
        simp only [try_copy_attempts, h]
        omega
    | none =>
        simp only [try_copy_attempts, h]
        omega
  · intro i hi hgood hfirst
    have hfga : firstGoodAttempt meta copyOk 0 10 = some i := by
      rw [firstGoodAttempt_some_iff]
      exact ⟨by omega, by omega, hgood, fun m hm1 hm2 => hfirst m hm2⟩
    exact ⟨by simp only [try_copy, hfga], by simp only [try_copy_attempts, hfga]⟩

/-- Proof helper: decode a decimal digit string back to the number. -/
def decodeDigits (l : List Char) : Nat :=
  l.foldl (fun a c => a * 10 + (c.toNat - 48)) 0

lemma digitChar_decode (d : Nat) (h : d < 10) : (Nat.digitChar d).toNat - 48 = d := by
  interval_cases d <;> rfl

lemma digitChar_ne_underscore (d : Nat) (h : d < 10) : Nat.digitChar d ≠ '_' := by
  interval_cases d <;> decide

lemma decodeDigits_append_singleton (l : List Char) (c : Char) :
    decodeDigits (l ++ [c]) = decodeDigits l * 10 + (c.toNat - 48) := by
  simp [decodeDigits, List.foldl_append]

lemma decodeDigits_natRepr : ∀ n, decodeDigits (natRepr n) = n := by
  intro n
  induction n using Nat.strong_induction_on with
  | _ n ih =>
      by_cases h : n < 10
      · rw [natRepr, if_pos h]
        simp [decodeDigits, digitChar_decode n h]
      · rw [natRepr, if_neg h]
        rw [decodeDigits_append_singleton]
        rw [ih (n / 10) (Nat.div_lt_self (by omega) (by omega))]
        rw [digitChar_decode (n % 10) (Nat.mod_lt _ (by omega))]
        omega

lemma natRepr_injective {m n : Nat} (h : natRepr m = natRepr n) : m = n := by
  have hm := decodeDigits_natRepr m
  rw [h, decodeDigits_natRepr] at hm
  omega

lemma underscore_not_mem_natRepr : ∀ n, '_' ∉ natRepr n := by
  intro n
  induction n using Nat.strong_induction_on with
  | _ n ih =>
      by_cases h : n < 10
      · rw [natRepr, if_pos h]
        simp
        exact fun hc => (digitChar_ne_underscore n h) hc.symm
      · rw [natRepr, if_neg h]
        intro hmem
        rcases List.mem_append.mp hmem with hl | hr
        · exact ih (n / 10) (Nat.div_lt_self (by omega) (by omega)) hl
        · rcases List.mem_singleton.mp hr with hc
          exact (digitChar_ne_underscore (n % 10) (Nat.mod_lt _ (by omega))) hc.symm

lemma append_underscore_cancel :
    ∀ (a b c d : List Char), '_' ∉ a → '_' ∉ b →
      a ++ '_' :: c = b ++ '_' :: d → a = b ∧ c = d := by
  intro a
  induction a with
  | nil =>
      intro b c d _ hb heq
      cases b with
      | nil =>
          simp only [List.nil_append] at heq
          injection heq with h1 h2
          exact ⟨rfl, h2⟩
      | cons x b' =>
          simp only [List.nil_append, List.cons_append] at heq
          injection heq with h1 h2
          exact absurd (h1 ▸ List.mem_cons_self x b') hb
  | cons y a' ih =>
      intro b c d ha hb heq
      cases b with
      | nil =>
          simp only [List.cons_append, List.nil_append] at heq
          injection heq with h1 h2
          exact absurd (h1 ▸ List.mem_cons_self y a') ha
      | cons x b' =>
          simp only [List.cons_append] at heq
          injection heq with h1 h2
          have ha' : '_' ∉ a' := fun hm => ha (List.mem_cons_of_mem y hm)
          have hb' : '_' ∉ b' := fun hm => hb (List.mem_cons_of_mem x hm)
          obtain ⟨hab, hcd⟩ := ih b' c d ha' hb' h2
          exact ⟨by rw [h1, hab], hcd⟩

/-- C7 (amended): two stagings of the same source file build distinct
destination filenames inside the staging directory whenever the two
`format_filename` calls observe distinct millisecond timestamps; the
timestamp prefix is the only disambiguator. -/
theorem format_filename_distinct_of_distinct_millis (ts1 ts2 : Nat)
    (sd full_path : RPath) (h : ts1 ≠ ts2) :
    format_filename ts1 sd full_path ≠ format_filename ts2 sd full_path := by
  intro heq
  unfold format_filename at heq
  have hlast := List.append_cancel_left heq
  injection hlast with hs
  have hdata := congrArg String.data hs
  simp only [String.data_append] at hdata
  have hdata' : natRepr ts1 ++ '_' :: ((fileName full_path).getD "").data =
      natRepr ts2 ++ '_' :: ((fileName full_path).getD "").data := by
    simpa [List.append_assoc] using hdata
  have := append_underscore_cancel (natRepr ts1) (natRepr ts2) _ _
    (underscore_not_mem_natRepr ts1) (underscore_not_mem_natRepr ts2) hdata'
  exact h (natRepr_injective this.1)

/-- C7 counterexample: the claim as stated — every pair of stagings of
the same source yields distinct destination filenames — fails when the
two stagings observe the same millisecond timestamp (the source's
`SystemTime::now().as_millis()` is the only varying part of the name):
two calls at millisecond 7 build the same destination path. -/
theorem format_filename_same_millis_collide :
    ¬ (∀ ts1 ts2 : Nat,
        format_filename ts1 ["sh"] ["dir", "liba.so"] ≠
          format_filename ts2 ["sh"] ["dir", "liba.so"]) :=
  fun h => h 7 7 rfl

lemma search_backwards_from_file_nil (fs : FS) (n : String) :
    search_backwards_from_file fs [] n = none := by
  unfold search_backwards_from_file
  rfl

/-- Filesystem for the backward-search demonstration: exactly one
regular file, at `a/liba.so`.  The executable lives at `a/b/exe`, so `a`
is a proper ancestor of the executable's directory `a/b` — under the
documented `Search::Default` behaviour it must not be probed. -/
def fsAncestor : FS := fun p =>
  if p = ["a", "liba.so"] then some { isFile := true, len := 4 } else none

/-- C1: `DynamicReload::new` binds its `Search` argument as `_search`
and never stores or consults it, so resolution walks the executable's
ancestor directories even under `Search::Default`: a library present
only in an ancestor of the executable's directory (not the current
directory, not a search path, not the executable's directory itself) is
still found, contradicting both the claim and the source's own
documentation of `Search::Default`. -/
theorem search_default_still_searches_ancestors :
    DynamicReload.new true [] none Search.Default =
      DynamicReload.new true [] none Search.Backwards ∧
    search_dirs fsAncestor ["a", "b", "exe"]
        (DynamicReload.new true [] none Search.Default).search_paths
        "liba.so" PlatformName.No = some ["a", "liba.so"] := by
  refine ⟨rfl, ?_⟩
  have h1 : search_current_dir fsAncestor "liba.so" = none := by
    simp [search_current_dir, is_file, fsAncestor]
  have h2 : search_relative_paths fsAncestor [] "liba.so" = none := rfl
  have h3 : search_backwards_from_file fsAncestor ["a", "b", "exe"] "liba.so" =
      search_backwards_from_file fsAncestor ["a", "b"] "liba.so" := by
    rw [search_backwards_from_file]
    simp [parentDir, is_file, fsAncestor]
  have h4 : search_backwards_from_file fsAncestor ["a", "b"] "liba.so" =
      some ["a", "liba.so"] := by
    rw [search_backwards_from_file]
    simp [parentDir, is_file, fsAncestor]
  simp only [search_dirs, get_library_name, DynamicReload.new]
  rw [if_neg (by intro hc; exact PlatformName.noConfusion hc)]
  rw [h1, h2]
  simp only [search_backwards_from_exe]
  rw [h3, h4]

/-! ## Concrete inputs used by the witnesses -/

/-- A tracked library, staged from `s/liba.so`. -/
def libW : Lib :=
  { lib := 1, loaded_path := ["t", "liba.so"], original_path := some ["s", "liba.so"] }

/-- A coordinator tracking `libW`, with no staging directory. -/
def stW : DynamicReload :=
  { libs := [libW], watcher := true, watched := [["s"]],
    shadow_dir := none, search_paths := [] }

/-- An environment whose load primitive always succeeds. -/
def envW : Env :=
  { fs := fun _ => none, exe_path := [], nowMillis := 0,
    meta := fun _ => some 1, copyOk := fun _ => true,
    libNew := fun _ => Except.ok 2 }

/-- An environment whose load primitive always fails with diagnostic 9. -/
def envFailW : Env :=
  { fs := fun _ => none, exe_path := [], nowMillis := 0,
    meta := fun _ => some 1, copyOk := fun _ => true,
    libNew := fun _ => Except.error 9 }

/-- `try_copy` observations: attempt 0 cannot stat the source, attempt 1
sees an empty file, attempt 2 succeeds. -/
def metaW : Nat → Option Nat := fun i =>
  if i = 2 then some 5 else if i = 0 then none else some 0

def copyOkW : Nat → Bool := fun _ => true

/-- A tracked library with no original path. -/
def libNoOrigW : Lib := { lib := 0, loaded_path := ["x"], original_path := none }

/-! ## Witnesses -/

/-- Witness for C2 at a concrete coordinator and environment. -/
theorem reload_lib_exactly_one_outcome_witness :
    ∃ old, stW.libs[0]? = some old ∧
      ((∃ lib, (reload_lib envW stW 0 ["s", "liba.so"]).2 =
          [(UpdateState.Before, some old), (UpdateState.After, some lib)]) ∨
       (∃ e, (reload_lib envW stW 0 ["s", "liba.so"]).2 =
          [(UpdateState.Before, some old), (UpdateState.ReloadFailed e, none)])) :=
  reload_lib_exactly_one_outcome envW stW 0 ["s", "liba.so"] (by decide)

/-- Witness for C3: with the observations of `metaW`/`copyOkW`, the copy
succeeds on the third attempt and stops there. -/
theorem try_copy_retry_policy_witness :
    try_copy metaW copyOkW ["src"] ["dst"] = Except.ok () ∧
    try_copy_attempts metaW copyOkW = 3 :=
  (try_copy_retry_policy metaW copyOkW ["src"] ["dst"]).2.2.2.2.2 2 (by omega)
    (by decide) (by decide)

/-- Witness for C4 at a concrete failing load. -/
theorem reload_lib_failure_not_reinserted_witness :
    reload_lib envFailW stW 0 ["s", "liba.so"] =
      (remove_lib stW 0,
        [(UpdateState.Before, stW.libs[0]?),
         (UpdateState.ReloadFailed (Error.Load 9), none)]) ∧
    (remove_lib stW 0).libs = swapRemove stW.libs 0 ∧
    (0 < stW.libs.length →
      ((reload_lib envFailW stW 0 ["s", "liba.so"]).1.libs).Perm
        (stW.libs.eraseIdx 0)) :=
  reload_lib_failure_not_reinserted envFailW stW 0 ["s", "liba.so"]
    (Error.Load 9) rfl

/-- Witness for C5: registering a name no search location has returns
`Find` and leaves the freshly constructed coordinator unchanged. -/
theorem add_library_error_unchanged_witness :
    add_library envW (DynamicReload.new true [] none Search.Default) "nolib"
        PlatformName.No =
      (DynamicReload.new true [] none Search.Default,
        Except.error (Error.Find "nolib")) :=
  (add_library_error_leaves_registry_unchanged envW
      (DynamicReload.new true [] none Search.Default) "nolib" PlatformName.No).1
    (by
      simp [search_dirs, get_library_name, search_current_dir,
        search_relative_paths, search_backwards_from_exe, is_file, envW,
        DynamicReload.new, search_backwards_from_file_nil])

/-- Witness for C6: a module without an original path is never selected. -/
theorem should_reload_iff_witness :
    should_reload ["s", "liba.so"] libNoOrigW = false :=
  should_reload_iff.2.1 ["s", "liba.so"] libNoOrigW rfl

/-- Witness for C7 at the concrete timestamps 0 and 1. -/
theorem format_filename_distinct_witness :
    format_filename 0 ["sh"] ["dir", "liba.so"] ≠
      format_filename 1 ["sh"] ["dir", "liba.so"] :=
  format_filename_distinct_of_distinct_millis 0 1 ["sh"] ["dir", "liba.so"]
    (by omega)

end DynamicReloadModel
